import Mathlib

/-!
Shallow embedding of the borrowing domain engine of the school-library
application (source: `models.py` and `app.py`).

The SQLite tables become lists of records in a `Store` structure; each
method of `User` / `Teacher` that mutates the database becomes a Lean
function from `Store` to `Store` (wrapped in `Except` when the Python
method can raise).  SQL `WHERE` clauses become Boolean filters, SQL
`UPDATE ... WHERE` becomes `List.map` of a row-update function, and the
`AUTOINCREMENT` primary key of the `borrow` table becomes an explicit
`nextId` counter.
-/

namespace Library

/-- The exception classes raised by `models.py`: `AuthFail`, `OutOfQuota`
(whose message carries the current borrowed count), `HasBorrowed`,
`NoBook`, the bare `LibException` raised by `return_book`, and the
`ValueError` raised by the `name` / `age` setters. -/
inductive LibErr where
  | authFail
  | outOfQuota (current : Nat)
  | hasBorrowed
  | noBook
  | libException
  | valueError
deriving DecidableEq

/-- A row of the `book` table. -/
structure Book where
  isbn : String
  title : String
  category : String
  authors : String
  publisher : String
  keywords : String
  remain : Int
deriving DecidableEq

/-- A row of the `borrow` table.  Dates are modelled as day counts. -/
structure Loan where
  id : Nat
  uid : String
  isbn : String
  borrow_date : Nat
  due_date : Nat
  returned : Bool
deriving DecidableEq

/-- A row of the `user` table. -/
structure UserRec where
  uid : String
  uname : String
  sex : String
  age : Int
  college : String
  join_year : Option Nat
  password : String
  role : String
deriving DecidableEq

/-- The whole database: the five entity tables plus the
`AUTOINCREMENT` counter of the `borrow` table. -/
structure Store where
  users : List UserRec
  classes : List (String × String)
  students : List (String × String)
  teacher_class : List (String × String)
  books : List Book
  borrows : List Loan
  nextId : Nat
deriving DecidableEq

/-- `User.quota`: role `"TEA"` gets 4, every other role gets 2. -/
def quota (role : String) : Nat :=
  if role = "TEA" then 4 else 2

/-- `SELECT * FROM book WHERE isbn=?` (first row or none). -/
def findBook (s : Store) (isbn : String) : Option Book :=
  s.books.find? (fun b => b.isbn == isbn)

/-- `SELECT 1 FROM borrow WHERE uid=? AND isbn=? AND returned=0`
(`fetchone` is non-`None` iff such a row exists). -/
def hasOpenLoan (s : Store) (uid isbn : String) : Bool :=
  s.borrows.any (fun l => l.uid == uid && l.isbn == isbn && l.returned == false)

/-- `SELECT COUNT(*) FROM borrow WHERE uid=? AND returned=0`. -/
def countOpenLoans (s : Store) (uid : String) : Nat :=
  (s.borrows.filter (fun l => l.uid == uid && l.returned == false)).length

/-- Row update of `UPDATE book SET remain=remain-1 WHERE isbn=?`. -/
def decRemain (isbn : String) (b : Book) : Book :=
  if b.isbn == isbn then { b with remain := b.remain - 1 } else b

/-- Row update of `UPDATE book SET remain=remain+1 WHERE isbn=?`. -/
def incRemain (isbn : String) (b : Book) : Book :=
  if b.isbn == isbn then { b with remain := b.remain + 1 } else b

/-- Row update of `UPDATE borrow SET returned=1 WHERE id=?`. -/
def flipRet (bid : Nat) (l : Loan) : Loan :=
  if l.id == bid then { l with returned := true } else l

/-- The row inserted by `INSERT INTO borrow(uid,isbn,borrow_date,due_date,
returned) VALUES(?,?,?,?,0)`: the `AUTOINCREMENT` id, the borrower, the
ISBN, today's date, a due date 90 days later, and `returned = 0`. -/
def newLoan (s : Store) (uid isbn : String) (today : Nat) : Loan :=
  { id := s.nextId, uid := uid, isbn := isbn,
    borrow_date := today, due_date := today + 90, returned := false }

/-- `User.borrow(self, isbn)`: the four numbered steps of the source, in
order — book existence and stock, duplicate open loan, quota, then the
INSERT of the new loan and the stock decrement.  `role` is `self.role`
and `today` the clock value. -/
def borrow (s : Store) (uid role isbn : String) (today : Nat) :
    Except LibErr Store :=
  match findBook s isbn with
  | none => .error .noBook
  | some book =>
    if book.remain ≤ 0 then .error .noBook
    else if hasOpenLoan s uid isbn then .error .hasBorrowed
    else
      let borrowed := countOpenLoans s uid
      if borrowed ≥ quota role then .error (.outOfQuota borrowed)
      else .ok { s with
        borrows := s.borrows ++ [newLoan s uid isbn today],
        nextId := s.nextId + 1,
        books := s.books.map (decRemain isbn) }

/-- `User.return_book(self, borrow_id)`: find an open loan with that id
and that owner, else raise the bare `LibException`; on success set its
`returned` flag and increment the book's stock. -/
def return_book (s : Store) (uid : String) (borrow_id : Nat) :
    Except LibErr Store :=
  match s.borrows.find?
      (fun l => l.id == borrow_id && l.uid == uid && l.returned == false) with
  | none => .error .libException
  | some br => .ok { s with
      borrows := s.borrows.map (flipRet borrow_id),
      books := s.books.map (incRemain br.isbn) }

/-- The `name` setter of `User`: `if not value: raise ValueError` —
for a Python string, falsy means the empty string — else
`UPDATE user SET name=? WHERE uid=?`. -/
def setName (s : Store) (uid value : String) : Except LibErr Store :=
  if value = "" then .error .valueError
  else .ok { s with
    users := s.users.map
      (fun u => if u.uid == uid then { u with uname := value } else u) }

/-- The `age` setter of `User`: rejects `value <= 0`, else
`UPDATE user SET age=? WHERE uid=?`. -/
def setAge (s : Store) (uid : String) (value : Int) : Except LibErr Store :=
  if value ≤ 0 then .error .valueError
  else .ok { s with
    users := s.users.map
      (fun u => if u.uid == uid then { u with age := value } else u) }

/-- `Teacher.add_class`: `INSERT OR IGNORE INTO teacher_class` with
composite primary key `(teacher_uid, class_id)` — add the edge unless it
is already present. -/
def add_class (s : Store) (teacher_uid class_id : String) : Store :=
  if (teacher_uid, class_id) ∈ s.teacher_class then s
  else { s with teacher_class := s.teacher_class ++ [(teacher_uid, class_id)] }

/-- `Teacher.remove_class`: `DELETE FROM teacher_class WHERE
teacher_uid=? AND class_id=?`. -/
def remove_class (s : Store) (teacher_uid class_id : String) : Store :=
  { s with teacher_class :=
      s.teacher_class.filter (fun p => !(p.1 == teacher_uid && p.2 == class_id)) }

/-- Open loans against a given ISBN (spec: "currently-open loans against
that ISBN"). -/
def openCount (s : Store) (isbn : String) : Nat :=
  (s.borrows.filter (fun l => l.isbn == isbn && l.returned == false)).length

/-- Open loans of a given borrower on a given ISBN. -/
def pairOpenCount (s : Store) (uid isbn : String) : Nat :=
  (s.borrows.filter
    (fun l => l.uid == uid && l.isbn == isbn && l.returned == false)).length

/-- A well-formed initial database: no borrow rows yet, non-negative
stock, and the primary keys of `book` and `user` hold. -/
def WFInit (s : Store) : Prop :=
  s.borrows = [] ∧ (∀ b ∈ s.books, 0 ≤ b.remain) ∧
    (s.books.map Book.isbn).Nodup ∧ (s.users.map UserRec.uid).Nodup

/-- States reachable from an initial database by the mutating
operations the application exposes.  A `borrow` step is performed by a
user loaded from the `user` table (as `current_user` does in `app.py`),
so the role passed to `borrow` is that user's stored role. -/
inductive Reachable (s₀ : Store) : Store → Prop where
  | init : Reachable s₀ s₀
  | step_borrow {s s' : Store} (u : UserRec) (isbn : String) (today : Nat) :
      Reachable s₀ s → u ∈ s.users →
      borrow s u.uid u.role isbn today = .ok s' → Reachable s₀ s'
  | step_return {s s' : Store} (uid : String) (lid : Nat) :
      Reachable s₀ s → return_book s uid lid = .ok s' → Reachable s₀ s'
  | step_setName {s s' : Store} (uid v : String) :
      Reachable s₀ s → setName s uid v = .ok s' → Reachable s₀ s'
  | step_setAge {s s' : Store} (uid : String) (v : Int) :
      Reachable s₀ s → setAge s uid v = .ok s' → Reachable s₀ s'
  | step_addClass {s : Store} (t c : String) :
      Reachable s₀ s → Reachable s₀ (add_class s t c)
  | step_removeClass {s : Store} (t c : String) :
      Reachable s₀ s → Reachable s₀ (remove_class s t c)

instance : DecidableEq (Except LibErr Store) :=
  fun a b =>
    match a, b with
    | .error x, .error y =>
        if h : x = y then .isTrue (by simp [h]) else .isFalse (by simp [h])
    | .error _, .ok _ => .isFalse (by simp)
    | .ok _, .error _ => .isFalse (by simp)
    | .ok x, .ok y =>
        if h : x = y then .isTrue (by simp [h]) else .isFalse (by simp [h])

/-- The inductive invariant of the borrowing engine, relative to the
initial database `s₀`: stock bookkeeping, non-negative stock, at most
one open loan per (borrower, ISBN) pair, quota respected, loan ids
below the counter and unique, loans referencing existing books, and the
`book` / `user` primary keys. -/
structure Inv (s₀ s : Store) : Prop where
  stock : ∀ b ∈ s.books, ∃ b₀ ∈ s₀.books, b₀.isbn = b.isbn ∧
            b.remain = b₀.remain - (openCount s b.isbn : Int)
  nonneg : ∀ b ∈ s.books, 0 ≤ b.remain
  pairOnce : ∀ uid isbn, pairOpenCount s uid isbn ≤ 1
  quotaOk : ∀ u ∈ s.users, countOpenLoans s u.uid ≤ quota u.role
  idsLt : ∀ l ∈ s.borrows, l.id < s.nextId
  idsNodup : (s.borrows.map Loan.id).Nodup
  loanBook : ∀ l ∈ s.borrows, ∃ b ∈ s.books, b.isbn = l.isbn
  booksNodup : (s.books.map Book.isbn).Nodup
  usersNodup : (s.users.map UserRec.uid).Nodup

/-- A small concrete catalog entry used by the concrete instantiations. -/
def demoBook : Book :=
  { isbn := "B1", title := "Algorithms", category := "CS", authors := "CLRS",
    publisher := "THU", keywords := "alg", remain := 2 }

/-- A concrete student row. -/
def demoUser : UserRec :=
  { uid := "S001", uname := "Alice", sex := "F", age := 19, college := "Math",
    join_year := none, password := "h", role := "STU" }

/-- A fresh database with one student and one two-copy book. -/
def demoStore : Store :=
  { users := [demoUser], classes := [], students := [], teacher_class := [],
    books := [demoBook], borrows := [], nextId := 1 }

/-- The loan created by the first borrow of `"B1"` by `"S001"` on day 0. -/
def demoLoan : Loan :=
  { id := 1, uid := "S001", isbn := "B1", borrow_date := 0, due_date := 90,
    returned := false }

/-- `demoStore` after `borrow "S001" "B1"` on day 0. -/
def demoStore1 : Store :=
  { users := [demoUser], classes := [], students := [], teacher_class := [],
    books := [{ demoBook with remain := 1 }], borrows := [demoLoan],
    nextId := 2 }

/-- `demoStore1` after `return_book "S001" 1`. -/
def demoStore2 : Store :=
  { users := [demoUser], classes := [], students := [], teacher_class := [],
    books := [{ demoBook with remain := 2 }],
    borrows := [{ demoLoan with returned := true }], nextId := 2 }

/-- A fresh database whose only book has a single copy. -/
def c3s0 : Store :=
  { users := [demoUser], classes := [], students := [], teacher_class := [],
    books := [{ demoBook with remain := 1 }], borrows := [], nextId := 1 }

/-- `c3s0` after `"S001"` borrowed the last copy of `"B1"`. -/
def c3s1 : Store :=
  { users := [demoUser], classes := [], students := [], teacher_class := [],
    books := [{ demoBook with remain := 0 }], borrows := [demoLoan],
    nextId := 2 }

/-- A fresh database with two single-copy books. -/
def q0 : Store :=
  { users := [demoUser], classes := [], students := [], teacher_class := [],
    books := [{ demoBook with remain := 1 },
              { demoBook with isbn := "B2", remain := 1 }],
    borrows := [], nextId := 1 }

/-- `q0` after `"S001"` borrowed `"B1"`. -/
def q1 : Store :=
  { users := [demoUser], classes := [], students := [], teacher_class := [],
    books := [{ demoBook with remain := 0 },
              { demoBook with isbn := "B2", remain := 1 }],
    borrows := [demoLoan], nextId := 2 }

/-- `q1` after `"S001"` borrowed `"B2"` — the student is now at quota. -/
def q2 : Store :=
  { users := [demoUser], classes := [], students := [], teacher_class := [],
    books := [{ demoBook with remain := 0 },
              { demoBook with isbn := "B2", remain := 0 }],
    borrows := [demoLoan, { demoLoan with id := 2, isbn := "B2" }],
    nextId := 3 }

/-- `demoStore` after renaming `"S001"` to a single blank. -/
def blankStore : Store :=
  { users := [{ demoUser with uname := " " }], classes := [], students := [],
    teacher_class := [], books := [demoBook], borrows := [], nextId := 1 }

theorem decRemain_isbn (i : String) (b : Book) : (decRemain i b).isbn = b.isbn := by
  unfold decRemain; split <;> rfl

theorem incRemain_isbn (i : String) (b : Book) : (incRemain i b).isbn = b.isbn := by
  unfold incRemain; split <;> rfl

theorem flipRet_id (bid : Nat) (l : Loan) : (flipRet bid l).id = l.id := by
  unfold flipRet; split <;> rfl

theorem flipRet_isbn (bid : Nat) (l : Loan) : (flipRet bid l).isbn = l.isbn := by
  unfold flipRet; split <;> rfl

/-- Length of an "open rows" filter after appending one row. -/
theorem countOpen_append (l : List Loan) (x : Loan) (key : Loan → Bool) :
    ((l ++ [x]).filter (fun a => key a && a.returned == false)).length
      = (l.filter (fun a => key a && a.returned == false)).length
        + (if key x && x.returned == false then 1 else 0) := by
  rw [List.filter_append, List.length_append]
  congr 1
  cases hkx : (key x && x.returned == false)
  · rw [List.filter_cons_of_neg (p := fun a => key a && a.returned == false)
        (by show ((key x && x.returned == false) = true) → False
            rw [hkx]; exact Bool.false_ne_true)]
    rfl
  · rw [List.filter_cons_of_pos (p := fun a => key a && a.returned == false) hkx]
    rfl

theorem map_flip_id (l : List Loan) (bid : Nat) (h : ∀ x ∈ l, x.id ≠ bid) :
    l.map (flipRet bid) = l := by
  induction l with
  | nil => rfl
  | cons a t ih =>
    have ha : a.id ≠ bid := h a (List.mem_cons_self a t)
    simp only [List.map_cons, flipRet, beq_iff_eq, if_neg ha]
    rw [ih (fun x hx => h x (List.mem_cons_of_mem a hx))]

/-- Length of an "open rows" filter after `UPDATE borrow SET returned=1
WHERE id=?` hits the open row `br`, provided ids are unique and the key
ignores the `returned` flag. -/
theorem count_flip (key : Loan → Bool)
    (hk : ∀ x, key { x with returned := true } = key x) :
    ∀ (l : List Loan) (br : Loan), br ∈ l → br.returned = false →
      (l.map Loan.id).Nodup →
      (l.filter (fun a => key a && a.returned == false)).length
        = ((l.map (flipRet br.id)).filter
            (fun a => key a && a.returned == false)).length
          + (if key br then 1 else 0) := by
  intro l
  induction l with
  | nil => intro br hm; exact absurd hm (List.not_mem_nil br)
  | cons a t ih =>
    intro br hm hro hnd
    rw [List.map_cons, List.nodup_cons] at hnd
    obtain ⟨hnotin, hndt⟩ := hnd
    rcases List.mem_cons.mp hm with rfl | hmt
    · have ht : ∀ x ∈ t, x.id ≠ br.id := by
        intro x hx hxe
        exact hnotin (hxe ▸ List.mem_map_of_mem Loan.id hx)
      rw [List.map_cons, map_flip_id t br.id ht]
      have hfa : flipRet br.id br = { br with returned := true } := by
        simp [flipRet]
      rw [hfa]
      simp only [List.filter_cons]
      rw [hro, hk]
      cases hkb : key br <;> simp [hkb]
    · have ha : a.id ≠ br.id := by
        intro he
        exact hnotin (he ▸ List.mem_map_of_mem Loan.id hmt)
      have hfa : flipRet br.id a = a := by
        simp [flipRet, ha]
      rw [List.map_cons, hfa]
      have hrec := ih br hmt hro hndt
      by_cases hka : (key a && a.returned == false) = true
      · rw [List.filter_cons_of_pos (p := fun a => key a && a.returned == false) hka,
            List.filter_cons_of_pos (p := fun a => key a && a.returned == false) hka,
            List.length_cons, List.length_cons]
        omega
      · rw [List.filter_cons_of_neg (p := fun a => key a && a.returned == false) hka,
            List.filter_cons_of_neg (p := fun a => key a && a.returned == false) hka]
        omega

/-- What a successful `borrow` tells us: the book was found with positive
stock, the duplicate and quota checks passed, and the new state is the
old one with the inserted loan, bumped id counter and decremented stock. -/
theorem borrow_ok_elim (s : Store) (uid role isbn : String) (today : Nat)
    (s' : Store) (h : borrow s uid role isbn today = .ok s') :
    ∃ b, findBook s isbn = some b ∧ 0 < b.remain ∧
      hasOpenLoan s uid isbn = false ∧ countOpenLoans s uid < quota role ∧
      s' = { s with
        borrows := s.borrows ++ [newLoan s uid isbn today],
        nextId := s.nextId + 1,
        books := s.books.map (decRemain isbn) } := by
  cases hb : findBook s isbn with
  | none => simp [borrow, hb] at h
  | some b =>
    simp only [borrow, hb] at h
    split_ifs at h with h1 h2 h3 <;>
      first
        | exact ⟨b, rfl, by omega, by simpa using h2, by omega,
            (Except.ok.inj h).symm⟩
        | simp at h

/-- What a successful `return_book` tells us: an open loan with that id
and owner was found, and the new state has that loan marked returned and
the book's stock incremented. -/
theorem return_ok_elim (s : Store) (uid : String) (lid : Nat) (s' : Store)
    (h : return_book s uid lid = .ok s') :
    ∃ br, s.borrows.find?
        (fun l => l.id == lid && l.uid == uid && l.returned == false)
          = some br ∧
      br ∈ s.borrows ∧ br.id = lid ∧ br.uid = uid ∧ br.returned = false ∧
      s' = { s with
        borrows := s.borrows.map (flipRet lid),
        books := s.books.map (incRemain br.isbn) } := by
  unfold return_book at h
  cases hf : s.borrows.find?
      (fun l => l.id == lid && l.uid == uid && l.returned == false) with
  | none => rw [hf] at h; exact absurd h (by simp)
  | some br =>
    rw [hf] at h
    have hmem := List.mem_of_find?_eq_some hf
    have hp := List.find?_some hf
    simp only [Bool.and_eq_true, beq_iff_eq] at hp
    exact ⟨br, rfl, hmem, hp.1.1, hp.1.2, hp.2, (Except.ok.inj h).symm⟩

/-- `return_book` fails (with the bare `LibException`) exactly when no
open loan with that id belongs to that borrower. -/
theorem return_err_iff (s : Store) (uid : String) (lid : Nat) :
    return_book s uid lid = .error .libException ↔
      ∀ l ∈ s.borrows, ¬(l.id = lid ∧ l.uid = uid ∧ l.returned = false) := by
  unfold return_book
  cases hf : s.borrows.find?
      (fun l => l.id == lid && l.uid == uid && l.returned == false) with
  | none =>
    simp only [List.find?_eq_none, Bool.and_eq_true, beq_iff_eq] at hf
    simp only [true_iff]
    intro l hl hc
    exact hf l hl ⟨⟨hc.1, hc.2.1⟩, hc.2.2⟩
  | some br =>
    have hmem := List.mem_of_find?_eq_some hf
    have hp := List.find?_some hf
    simp only [Bool.and_eq_true, beq_iff_eq] at hp
    constructor
    · intro hc; exact absurd hc (by simp)
    · intro hall
      exact absurd ⟨hp.1.1, hp.1.2, hp.2⟩ (hall br hmem)

/-- The duplicate-loan check is the emptiness of the open-loan count for
the `(borrower, isbn)` pair. -/
theorem hasOpenLoan_false_iff (s : Store) (uid isbn : String) :
    hasOpenLoan s uid isbn = false ↔ pairOpenCount s uid isbn = 0 := by
  unfold hasOpenLoan pairOpenCount
  rw [List.length_eq_zero, List.filter_eq_nil_iff, List.any_eq_false]

theorem countOpenLoans_after_borrow (s : Store) (uid isbn : String)
    (today : Nat) (u' : String) :
    countOpenLoans { s with
        borrows := s.borrows ++ [newLoan s uid isbn today],
        nextId := s.nextId + 1,
        books := s.books.map (decRemain isbn) } u'
      = countOpenLoans s u' + (if uid == u' then 1 else 0) := by
  have h := countOpen_append s.borrows (newLoan s uid isbn today)
    (fun l => l.uid == u')
  simp only [newLoan, beq_self_eq_true, Bool.and_true] at h
  exact h

theorem openCount_after_borrow (s : Store) (uid isbn : String)
    (today : Nat) (i : String) :
    openCount { s with
        borrows := s.borrows ++ [newLoan s uid isbn today],
        nextId := s.nextId + 1,
        books := s.books.map (decRemain isbn) } i
      = openCount s i + (if isbn == i then 1 else 0) := by
  have h := countOpen_append s.borrows (newLoan s uid isbn today)
    (fun l => l.isbn == i)
  simp only [newLoan, beq_self_eq_true, Bool.and_true] at h
  exact h

theorem pairOpenCount_after_borrow (s : Store) (uid isbn : String)
    (today : Nat) (u' i : String) :
    pairOpenCount { s with
        borrows := s.borrows ++ [newLoan s uid isbn today],
        nextId := s.nextId + 1,
        books := s.books.map (decRemain isbn) } u' i
      = pairOpenCount s u' i + (if uid == u' && isbn == i then 1 else 0) := by
  have h := countOpen_append s.borrows (newLoan s uid isbn today)
    (fun l => l.uid == u' && l.isbn == i)
  simp only [newLoan, beq_self_eq_true, Bool.and_true] at h
  exact h

theorem countOpenLoans_flip (s : Store) (br : Loan) (hm : br ∈ s.borrows)
    (hro : br.returned = false) (hnd : (s.borrows.map Loan.id).Nodup)
    (books' : List Book) (u' : String) :
    countOpenLoans s u'
      = countOpenLoans { s with
          borrows := s.borrows.map (flipRet br.id), books := books' } u'
        + (if br.uid == u' then 1 else 0) :=
  count_flip (fun l => l.uid == u') (fun _ => rfl) s.borrows br hm hro hnd

theorem openCount_flip (s : Store) (br : Loan) (hm : br ∈ s.borrows)
    (hro : br.returned = false) (hnd : (s.borrows.map Loan.id).Nodup)
    (books' : List Book) (i : String) :
    openCount s i
      = openCount { s with
          borrows := s.borrows.map (flipRet br.id), books := books' } i
        + (if br.isbn == i then 1 else 0) :=
  count_flip (fun l => l.isbn == i) (fun _ => rfl) s.borrows br hm hro hnd

theorem pairOpenCount_flip (s : Store) (br : Loan) (hm : br ∈ s.borrows)
    (hro : br.returned = false) (hnd : (s.borrows.map Loan.id).Nodup)
    (books' : List Book) (u' i : String) :
    pairOpenCount s u' i
      = pairOpenCount { s with
          borrows := s.borrows.map (flipRet br.id), books := books' } u' i
        + (if br.uid == u' && br.isbn == i then 1 else 0) :=
  count_flip (fun l => l.uid == u' && l.isbn == i) (fun _ => rfl)
    s.borrows br hm hro hnd

theorem map_isbn_dec (l : List Book) (i : String) :
    (l.map (decRemain i)).map Book.isbn = l.map Book.isbn := by
  induction l with
  | nil => rfl
  | cons a t ih => simp [decRemain_isbn, ih]

theorem map_isbn_inc (l : List Book) (i : String) :
    (l.map (incRemain i)).map Book.isbn = l.map Book.isbn := by
  induction l with
  | nil => rfl
  | cons a t ih => simp [incRemain_isbn, ih]

theorem map_id_flip (l : List Loan) (bid : Nat) :
    (l.map (flipRet bid)).map Loan.id = l.map Loan.id := by
  induction l with
  | nil => rfl
  | cons a t ih => simp [flipRet_id, ih]

theorem map_uid_of_preserve (g : UserRec → UserRec)
    (hg : ∀ u, (g u).uid = u.uid) (l : List UserRec) :
    (l.map g).map UserRec.uid = l.map UserRec.uid := by
  induction l with
  | nil => rfl
  | cons a t ih => simp [hg, ih]

theorem inv_init (s : Store) (h : WFInit s) : Inv s s := by
  obtain ⟨hb, hnn, hbn, hun⟩ := h
  constructor
  · intro b hbm
    refine ⟨b, hbm, rfl, ?_⟩
    unfold openCount
    rw [hb]
    simp
  · exact hnn
  · intro uid isbn; unfold pairOpenCount; rw [hb]; simp
  · intro u hu; unfold countOpenLoans; rw [hb]; simp
  · intro l hl; rw [hb] at hl; exact absurd hl (List.not_mem_nil l)
  · rw [hb]; simp
  · intro l hl; rw [hb] at hl; exact absurd hl (List.not_mem_nil l)
  · exact hbn
  · exact hun

theorem inv_addClass (s₀ s : Store) (t c : String) (hI : Inv s₀ s) :
    Inv s₀ (add_class s t c) := by
  unfold add_class
  split
  · exact hI
  · exact ⟨hI.stock, hI.nonneg, hI.pairOnce, hI.quotaOk, hI.idsLt,
      hI.idsNodup, hI.loanBook, hI.booksNodup, hI.usersNodup⟩

theorem inv_removeClass (s₀ s : Store) (t c : String) (hI : Inv s₀ s) :
    Inv s₀ (remove_class s t c) :=
  ⟨hI.stock, hI.nonneg, hI.pairOnce, hI.quotaOk, hI.idsLt,
    hI.idsNodup, hI.loanBook, hI.booksNodup, hI.usersNodup⟩

theorem inv_setName (s₀ s s' : Store) (uid v : String) (hI : Inv s₀ s)
    (h : setName s uid v = .ok s') : Inv s₀ s' := by
  by_cases h1 : v = ""
  · unfold setName at h; rw [if_pos h1] at h; simp at h
  · unfold setName at h; rw [if_neg h1] at h
    have he := Except.ok.inj h
    subst he
    refine ⟨hI.stock, hI.nonneg, hI.pairOnce, ?_, hI.idsLt,
      hI.idsNodup, hI.loanBook, hI.booksNodup, ?_⟩
    · intro w hw
      obtain ⟨u, hu, rfl⟩ := List.mem_map.mp hw
      have huid : ((if u.uid == uid then { u with uname := v } else u)
          : UserRec).uid = u.uid := by split <;> rfl
      have hrole : ((if u.uid == uid then { u with uname := v } else u)
          : UserRec).role = u.role := by split <;> rfl
      simp only [huid, hrole]
      exact hI.quotaOk u hu
    · have := map_uid_of_preserve
        (fun u => if u.uid == uid then { u with uname := v } else u)
        (fun u => by by_cases hc : u.uid == uid <;> simp [hc]) s.users
      show ((s.users.map _).map UserRec.uid).Nodup
      rw [this]
      exact hI.usersNodup

theorem inv_setAge (s₀ s s' : Store) (uid : String) (v : Int) (hI : Inv s₀ s)
    (h : setAge s uid v = .ok s') : Inv s₀ s' := by
  by_cases h1 : v ≤ 0
  · unfold setAge at h; rw [if_pos h1] at h; simp at h
  · unfold setAge at h; rw [if_neg h1] at h
    have he := Except.ok.inj h
    subst he
    refine ⟨hI.stock, hI.nonneg, hI.pairOnce, ?_, hI.idsLt,
      hI.idsNodup, hI.loanBook, hI.booksNodup, ?_⟩
    · intro w hw
      obtain ⟨u, hu, rfl⟩ := List.mem_map.mp hw
      have huid : ((if u.uid == uid then { u with age := v } else u)
          : UserRec).uid = u.uid := by split <;> rfl
      have hrole : ((if u.uid == uid then { u with age := v } else u)
          : UserRec).role = u.role := by split <;> rfl
      simp only [huid, hrole]
      exact hI.quotaOk u hu
    · have := map_uid_of_preserve
        (fun u => if u.uid == uid then { u with age := v } else u)
        (fun u => by by_cases hc : u.uid == uid <;> simp [hc]) s.users
      show ((s.users.map _).map UserRec.uid).Nodup
      rw [this]
      exact hI.usersNodup

theorem inv_borrow (s₀ s s' : Store) (u : UserRec) (isbn : String)
    (today : Nat) (hI : Inv s₀ s) (hu : u ∈ s.users)
    (h : borrow s u.uid u.role isbn today = .ok s') : Inv s₀ s' := by
  obtain ⟨b, hb, hbpos, hdup, hq, rfl⟩ :=
    borrow_ok_elim s u.uid u.role isbn today s' h
  have hb' : s.books.find? (fun x => x.isbn == isbn) = some b := hb
  have hbmem : b ∈ s.books := List.mem_of_find?_eq_some hb'
  have hbeq := List.find?_some hb'
  have hbisbn : b.isbn = isbn := beq_iff_eq.mp hbeq
  constructor
  · intro b' hb'
    obtain ⟨c, hc, rfl⟩ := List.mem_map.mp hb'
    obtain ⟨b₀, hb₀, hiso, hrem⟩ := hI.stock c hc
    refine ⟨b₀, hb₀, by rw [decRemain_isbn]; exact hiso, ?_⟩
    rw [decRemain_isbn, openCount_after_borrow]
    by_cases hci : c.isbn = isbn
    · have h1 : (decRemain isbn c).remain = c.remain - 1 := by
        simp [decRemain, hci]
      have h2 : (isbn == c.isbn) = true := beq_iff_eq.mpr hci.symm
      rw [h1, hrem, h2, if_pos rfl]
      push_cast
      ring
    · have h1 : decRemain isbn c = c := by simp [decRemain, hci]
      have h2 : (isbn == c.isbn) = false :=
        beq_eq_false_iff_ne.mpr (fun he => hci he.symm)
      rw [h1, h2, if_neg Bool.false_ne_true, Nat.add_zero]
      exact hrem
  · intro b' hb'
    obtain ⟨c, hc, rfl⟩ := List.mem_map.mp hb'
    by_cases hci : c.isbn = isbn
    · have hcb : c = b :=
        List.inj_on_of_nodup_map hI.booksNodup hc hbmem (by rw [hci, hbisbn])
      have h1 : (decRemain isbn c).remain = c.remain - 1 := by
        simp [decRemain, hci]
      rw [h1, hcb]
      omega
    · have h1 : decRemain isbn c = c := by simp [decRemain, hci]
      rw [h1]
      exact hI.nonneg c hc
  · intro uid' isbn'
    rw [pairOpenCount_after_borrow]
    by_cases h1 : u.uid = uid'
    · by_cases h2 : isbn = isbn'
      · have h0 : pairOpenCount s uid' isbn' = 0 := by
          rw [← h1, ← h2]
          exact (hasOpenLoan_false_iff s u.uid isbn).mp
            (by simpa using hdup)
        have hc : (u.uid == uid' && isbn == isbn') = true := by
          simp [h1, h2]
        rw [h0, hc, if_pos rfl]
      · have hc : (u.uid == uid' && isbn == isbn') = false := by
          simp [h2]
        rw [hc, if_neg Bool.false_ne_true, Nat.add_zero]
        exact hI.pairOnce uid' isbn'
    · have hc : (u.uid == uid' && isbn == isbn') = false := by
        simp [h1]
      rw [hc, if_neg Bool.false_ne_true, Nat.add_zero]
      exact hI.pairOnce uid' isbn'
  · intro w hw
    rw [countOpenLoans_after_borrow]
    by_cases he : u.uid = w.uid
    · have hwu : w = u := List.inj_on_of_nodup_map hI.usersNodup hw hu he.symm
      have hc : (u.uid == w.uid) = true := beq_iff_eq.mpr he
      rw [hc, if_pos rfl, hwu]
      omega
    · have hc : (u.uid == w.uid) = false := beq_eq_false_iff_ne.mpr he
      rw [hc, if_neg Bool.false_ne_true, Nat.add_zero]
      exact hI.quotaOk w hw
  · intro l hl
    rcases List.mem_append.mp hl with hl | hl
    · exact Nat.lt_succ_of_lt (hI.idsLt l hl)
    · rw [List.mem_singleton.mp hl]
      exact Nat.lt_succ_self s.nextId
  · rw [List.map_append]
    rw [List.nodup_append]
    refine ⟨hI.idsNodup, List.nodup_singleton _, ?_⟩
    intro x hx hx'
    obtain ⟨l, hl, rfl⟩ := List.mem_map.mp hx
    have : (newLoan s u.uid isbn today).id = s.nextId := rfl
    rw [List.map_singleton, List.mem_singleton, this] at hx'
    exact absurd (hx' ▸ hI.idsLt l hl) (lt_irrefl s.nextId)
  · intro l hl
    rcases List.mem_append.mp hl with hl | hl
    · obtain ⟨c, hc, hiso⟩ := hI.loanBook l hl
      exact ⟨decRemain isbn c, List.mem_map_of_mem (decRemain isbn) hc,
        by rw [decRemain_isbn]; exact hiso⟩
    · rw [List.mem_singleton.mp hl]
      exact ⟨decRemain isbn b, List.mem_map_of_mem (decRemain isbn) hbmem,
        by rw [decRemain_isbn, hbisbn]; rfl⟩
  · show ((s.books.map (decRemain isbn)).map Book.isbn).Nodup
    rw [map_isbn_dec]
    exact hI.booksNodup
  · exact hI.usersNodup

theorem inv_return (s₀ s s' : Store) (uid : String) (lid : Nat)
    (hI : Inv s₀ s) (h : return_book s uid lid = .ok s') : Inv s₀ s' := by
  obtain ⟨br, hf, hbm, hid, huid, hro, rfl⟩ := return_ok_elim s uid lid s' h
  subst hid
  constructor
  · intro b' hb'
    obtain ⟨c, hc, rfl⟩ := List.mem_map.mp hb'
    obtain ⟨b₀, hb₀, hiso, hrem⟩ := hI.stock c hc
    refine ⟨b₀, hb₀, by rw [incRemain_isbn]; exact hiso, ?_⟩
    rw [incRemain_isbn]
    have hcount := openCount_flip s br hbm hro hI.idsNodup
      (s.books.map (incRemain br.isbn)) c.isbn
    by_cases hci : br.isbn = c.isbn
    · have h1 : (incRemain br.isbn c).remain = c.remain + 1 := by
        simp [incRemain, hci]
      have h2 : (br.isbn == c.isbn) = true := beq_iff_eq.mpr hci
      rw [h2, if_pos rfl] at hcount
      rw [h1, hrem]
      omega
    · have h1 : incRemain br.isbn c = c := by
        simp [incRemain]
        exact fun he => absurd he.symm hci
      have h2 : (br.isbn == c.isbn) = false := beq_eq_false_iff_ne.mpr hci
      rw [h2, if_neg Bool.false_ne_true, Nat.add_zero] at hcount
      rw [h1, ← hcount]
      exact hrem
  · intro b' hb'
    obtain ⟨c, hc, rfl⟩ := List.mem_map.mp hb'
    have h0 := hI.nonneg c hc
    by_cases hci : c.isbn = br.isbn
    · have h1 : (incRemain br.isbn c).remain = c.remain + 1 := by
        simp [incRemain, hci]
      rw [h1]
      omega
    · have h1 : incRemain br.isbn c = c := by simp [incRemain, hci]
      rw [h1]
      exact h0
  · intro u' i'
    have hcount := pairOpenCount_flip s br hbm hro hI.idsNodup
      (s.books.map (incRemain br.isbn)) u' i'
    have hb1 := hI.pairOnce u' i'
    omega
  · intro w hw
    have hcount := countOpenLoans_flip s br hbm hro hI.idsNodup
      (s.books.map (incRemain br.isbn)) w.uid
    have hq := hI.quotaOk w hw
    omega
  · intro l hl
    obtain ⟨m, hm, rfl⟩ := List.mem_map.mp hl
    rw [flipRet_id]
    exact hI.idsLt m hm
  · show ((s.borrows.map (flipRet br.id)).map Loan.id).Nodup
    rw [map_id_flip]
    exact hI.idsNodup
  · intro l hl
    obtain ⟨m, hm, rfl⟩ := List.mem_map.mp hl
    obtain ⟨c, hc, hiso⟩ := hI.loanBook m hm
    exact ⟨incRemain br.isbn c, List.mem_map_of_mem (incRemain br.isbn) hc,
      by rw [incRemain_isbn, flipRet_isbn]; exact hiso⟩
  · show ((s.books.map (incRemain br.isbn)).map Book.isbn).Nodup
    rw [map_isbn_inc]
    exact hI.booksNodup
  · exact hI.usersNodup

/-- Every state reachable from a well-formed initial database satisfies
the borrowing-engine invariant. -/
theorem reachable_inv (s₀ s : Store) (h₀ : WFInit s₀) (h : Reachable s₀ s) :
    Inv s₀ s := by
  induction h with
  | init => exact inv_init s₀ h₀
  | step_borrow u isbn today hr hu hb ih =>
      exact inv_borrow s₀ _ _ u isbn today ih hu hb
  | step_return uid lid hr hb ih => exact inv_return s₀ _ _ uid lid ih hb
  | step_setName uid v hr hb ih => exact inv_setName s₀ _ _ uid v ih hb
  | step_setAge uid v hr hb ih => exact inv_setAge s₀ _ _ uid v ih hb
  | step_addClass t c hr ih => exact inv_addClass s₀ _ t c ih
  | step_removeClass t c hr ih => exact inv_removeClass s₀ _ t c ih

/-- `SELECT ... WHERE isbn=?` commutes with a row update that keeps the
`isbn` column. -/
theorem find?_isbn_map (l : List Book) (i : String) (f : Book → Book)
    (hf : ∀ b, (f b).isbn = b.isbn) :
    (l.map f).find? (fun b => b.isbn == i) =
      (l.find? (fun b => b.isbn == i)).map f := by
  induction l with
  | nil => rfl
  | cons a t ih =>
    cases ha : (a.isbn == i)
    · rw [List.map_cons,
        List.find?_cons_of_neg (p := fun b : Book => b.isbn == i) _
          (by show ((f a).isbn == i) = true → False
              rw [hf a, ha]; exact Bool.false_ne_true),
        List.find?_cons_of_neg (p := fun b : Book => b.isbn == i) _
          (by show (a.isbn == i) = true → False
              rw [ha]; exact Bool.false_ne_true),
        ih]
    · rw [List.map_cons,
        List.find?_cons_of_pos (p := fun b : Book => b.isbn == i) _
          (by show ((f a).isbn == i) = true
              rw [hf a]; exact ha),
        List.find?_cons_of_pos (p := fun b : Book => b.isbn == i) _ ha]
      rfl

/-- C1.  The three failures of `borrow`, each characterised exactly, so
that the fixed order of the checks (existence and stock, then duplicate,
then quota) is pinned down: `NoBook` surfaces iff the book is absent or
out of stock; `HasBorrowed` surfaces iff the book is available and the
borrower has an open loan on it; `OutOfQuota` surfaces iff the book is
available, there is no duplicate, and the open-loan count has reached
the role's quota (and the reported count is that open-loan count). -/
theorem borrow_error_precedence (s : Store) (uid role isbn : String)
    (today : Nat) :
    (borrow s uid role isbn today = .error .noBook ↔
       findBook s isbn = none ∨ ∃ b, findBook s isbn = some b ∧ b.remain ≤ 0) ∧
    (borrow s uid role isbn today = .error .hasBorrowed ↔
       (∃ b, findBook s isbn = some b ∧ 0 < b.remain) ∧
         hasOpenLoan s uid isbn = true) ∧
    (∀ n, borrow s uid role isbn today = .error (.outOfQuota n) ↔
       (∃ b, findBook s isbn = some b ∧ 0 < b.remain) ∧
         hasOpenLoan s uid isbn = false ∧
         n = countOpenLoans s uid ∧ quota role ≤ n) := by
  refine ⟨?_, ?_, ?_⟩
  · cases h : findBook s isbn with
    | none => simp [borrow, h]
    | some b =>
      simp only [borrow, h]
      split_ifs with h1 h2 h3 <;> simp_all
  · cases h : findBook s isbn with
    | none => simp [borrow, h]
    | some b =>
      simp only [borrow, h]
      split_ifs with h1 h2 h3 <;> simp_all
  · intro n
    cases h : findBook s isbn with
    | none => simp [borrow, h]
    | some b =>
      simp only [borrow, h]
      split_ifs with h1 h2 h3 <;> simp_all <;> omega

/-- C8.  `associate` (i.e. `Teacher.add_class`) is idempotent: adding
the same (teacher, class) edge twice yields the same membership state as
adding it once, and re-associating an existing edge is a silent no-op
(the edge is present afterwards; no error is possible). -/
theorem associate_idempotent (s : Store) (t c : String) :
    add_class (add_class s t c) t c = add_class s t c ∧
    (t, c) ∈ (add_class s t c).teacher_class := by
  constructor
  · by_cases h : (t, c) ∈ s.teacher_class
    · simp [add_class, h]
    · simp [add_class, h]
  · by_cases h : (t, c) ∈ s.teacher_class
    · simp [add_class, h]
    · simp [add_class, h]

/-- C2.  In every reachable state every book has non-negative stock
equal to its initial stock minus the open loans against its ISBN; a
successful `borrow` decrements the borrowed book's stock by exactly 1
and a successful `return_book` increments the returned book's stock by
exactly 1. -/
theorem stock_invariant (s₀ s : Store) (h₀ : WFInit s₀) (h : Reachable s₀ s) :
    (∀ b ∈ s.books, 0 ≤ b.remain ∧ ∃ b₀ ∈ s₀.books, b₀.isbn = b.isbn ∧
        b.remain = b₀.remain - (openCount s b.isbn : Int)) ∧
    (∀ uid role isbn today s' b, borrow s uid role isbn today = .ok s' →
        findBook s isbn = some b →
        findBook s' isbn = some { b with remain := b.remain - 1 }) ∧
    (∀ uid lid s' br b, return_book s uid lid = .ok s' →
        s.borrows.find? (fun l => l.id == lid && l.uid == uid &&
          l.returned == false) = some br →
        findBook s br.isbn = some b →
        findBook s' br.isbn = some { b with remain := b.remain + 1 }) := by
  have hI := reachable_inv s₀ s h₀ h
  refine ⟨?_, ?_, ?_⟩
  · intro b hb
    exact ⟨hI.nonneg b hb, hI.stock b hb⟩
  · intro uid role isbn today s' b hok hfb
    obtain ⟨b2, hb2, hpos2, hdup2, hq2, rfl⟩ :=
      borrow_ok_elim s uid role isbn today s' hok
    have hmap := find?_isbn_map s.books isbn (decRemain isbn)
      (decRemain_isbn isbn)
    show (s.books.map (decRemain isbn)).find? (fun x => x.isbn == isbn) = _
    rw [hmap]
    have hfb' : s.books.find? (fun x => x.isbn == isbn) = some b := hfb
    rw [hfb']
    have hbb := List.find?_some hfb'
    have hbisbn : b.isbn = isbn := beq_iff_eq.mp hbb
    simp [decRemain, hbisbn]
  · intro uid lid s' br b hok hfl hfb
    obtain ⟨br2, hf2, hm2, hid2, huid2, hro2, rfl⟩ :=
      return_ok_elim s uid lid s' hok
    have hbr : br2 = br := Option.some.inj (hf2.symm.trans hfl)
    subst hbr
    have hmap := find?_isbn_map s.books br2.isbn (incRemain br2.isbn)
      (incRemain_isbn br2.isbn)
    show (s.books.map (incRemain br2.isbn)).find?
        (fun x => x.isbn == br2.isbn) = _
    rw [hmap]
    have hfb' : s.books.find? (fun x => x.isbn == br2.isbn) = some b := hfb
    rw [hfb']
    have hbb := List.find?_some hfb'
    have hbisbn : b.isbn = br2.isbn := beq_iff_eq.mp hbb
    simp [incRemain, hbisbn]

theorem stock_invariant_witness :
    WFInit demoStore ∧
    (∀ b ∈ demoStore.books, 0 ≤ b.remain ∧ ∃ b₀ ∈ demoStore.books,
      b₀.isbn = b.isbn ∧
      b.remain = b₀.remain - (openCount demoStore b.isbn : Int)) :=
  ⟨⟨rfl, by decide, by decide, by decide⟩,
    (stock_invariant demoStore demoStore
      ⟨rfl, by decide, by decide, by decide⟩ Reachable.init).1⟩

/-- C3 as frozen is refuted: in the reachable state `c3s1` the student
`"S001"` holds an open loan on `"B1"`, yet a second borrow of `"B1"`
fails with `NoBook` (stock is 0 and that check runs first), not with
`HasBorrowed`. -/
theorem duplicate_claim_cex :
    WFInit c3s0 ∧ Reachable c3s0 c3s1 ∧
    hasOpenLoan c3s1 "S001" "B1" = true ∧
    borrow c3s1 "S001" "STU" "B1" 0 = .error .noBook := by
  refine ⟨⟨rfl, by decide, by decide, by decide⟩, ?_, by decide, by decide⟩
  exact Reachable.step_borrow demoUser "B1" 0 Reachable.init (by decide)
    (by decide)

/-- C3 amended.  In every reachable state at most one open loan exists
per (borrower, ISBN) pair, and a borrow of an ISBN on which the borrower
already holds an open loan always fails (creating no loan); the failure
is `HasBorrowed` whenever the book is in stock (when stock is exhausted
the earlier `NoBook` check fires instead). -/
theorem duplicate_loan_unique (s₀ s : Store) (h₀ : WFInit s₀)
    (h : Reachable s₀ s) :
    (∀ uid isbn, pairOpenCount s uid isbn ≤ 1) ∧
    (∀ uid role isbn today, hasOpenLoan s uid isbn = true →
      (∃ e, borrow s uid role isbn today = .error e) ∧
      (∀ b, findBook s isbn = some b → 0 < b.remain →
        borrow s uid role isbn today = .error .hasBorrowed)) := by
  have hI := reachable_inv s₀ s h₀ h
  refine ⟨hI.pairOnce, ?_⟩
  intro uid role isbn today hopen
  constructor
  · cases hb : findBook s isbn with
    | none => exact ⟨.noBook, by simp [borrow, hb]⟩
    | some b =>
      by_cases hr : b.remain ≤ 0
      · exact ⟨.noBook, by simp [borrow, hb, hr]⟩
      · exact ⟨.hasBorrowed, by simp [borrow, hb, hr, hopen]⟩
  · intro b hb hpos
    have hr : ¬(b.remain ≤ 0) := by omega
    simp [borrow, hb, hr, hopen]

theorem duplicate_loan_unique_witness :
    (∀ uid isbn, pairOpenCount c3s1 uid isbn ≤ 1) ∧
    (∃ e, borrow c3s1 "S001" "STU" "B1" 0 = .error e) := by
  have h := duplicate_loan_unique c3s0 c3s1
    ⟨rfl, by decide, by decide, by decide⟩
    (Reachable.step_borrow demoUser "B1" 0 Reachable.init (by decide)
      (by decide))
  exact ⟨h.1, (h.2 "S001" "STU" "B1" 0 (by decide)).1⟩

/-- C4 as frozen is refuted: in the reachable state `q2` the student
`"S001"` is at quota (2 open loans), yet borrowing the absent ISBN
`"B3"` fails with `NoBook`, not with `OutOfQuota` — the failure is not
`OutOfQuota` "exactly when" the count has reached the quota. -/
theorem quota_claim_cex :
    WFInit q0 ∧ Reachable q0 q2 ∧
    quota "STU" ≤ countOpenLoans q2 "S001" ∧
    borrow q2 "S001" "STU" "B3" 0 = .error .noBook := by
  refine ⟨⟨rfl, by decide, by decide, by decide⟩, ?_, by decide, by decide⟩
  have h1 : Reachable q0 q1 :=
    Reachable.step_borrow demoUser "B1" 0 Reachable.init (by decide)
      (by decide)
  exact Reachable.step_borrow demoUser "B2" 0 h1 (by decide) (by decide)

/-- C4 amended.  `quota` is a pure function mapping `"TEA"` to 4 and
`"STU"` to 2; in every reachable state every user's open-loan count is
at most the quota of their role; and once the earlier checks pass (book
present with positive stock, no duplicate open loan), `borrow` fails
with `OutOfQuota` exactly when the current open-loan count has reached
the quota. -/
theorem quota_policy (s₀ s : Store) (h₀ : WFInit s₀) (h : Reachable s₀ s) :
    quota "TEA" = 4 ∧ quota "STU" = 2 ∧
    (∀ u ∈ s.users, countOpenLoans s u.uid ≤ quota u.role) ∧
    (∀ uid role isbn today b, findBook s isbn = some b → 0 < b.remain →
      hasOpenLoan s uid isbn = false →
      ((∃ n, borrow s uid role isbn today = .error (.outOfQuota n)) ↔
        quota role ≤ countOpenLoans s uid)) := by
  have hI := reachable_inv s₀ s h₀ h
  refine ⟨by decide, by decide, hI.quotaOk, ?_⟩
  intro uid role isbn today b hb hpos hdup
  have hr : ¬(b.remain ≤ 0) := by omega
  constructor
  · rintro ⟨n, hn⟩
    simp only [borrow, hb] at hn
    rw [if_neg hr] at hn
    rw [hdup] at hn
    simp only [Bool.false_eq_true, if_false] at hn
    by_cases hq : quota role ≤ countOpenLoans s uid
    · exact hq
    · rw [if_neg (by omega : ¬(countOpenLoans s uid ≥ quota role))] at hn
      exact absurd hn (by simp)
  · intro hq
    refine ⟨countOpenLoans s uid, ?_⟩
    simp only [borrow, hb]
    rw [if_neg hr, hdup]
    simp only [Bool.false_eq_true, if_false]
    rw [if_pos (by omega : countOpenLoans s uid ≥ quota role)]

theorem quota_policy_witness :
    quota "TEA" = 4 ∧ quota "STU" = 2 ∧
    (∀ u ∈ q2.users, countOpenLoans q2 u.uid ≤ quota u.role) := by
  have h1 : Reachable q0 q1 :=
    Reachable.step_borrow demoUser "B1" 0 Reachable.init (by decide)
      (by decide)
  have h := quota_policy q0 q2 ⟨rfl, by decide, by decide, by decide⟩
    (Reachable.step_borrow demoUser "B2" 0 h1 (by decide) (by decide))
  exact ⟨h.1, h.2.1, h.2.2.1⟩

/-- C5.  A successful `borrow` appends exactly one new loan, for that
borrower and ISBN, dated today with due date 90 days later, still open,
with an identifier distinct from every pre-existing loan's identifier;
and the stock column is updated by the decrementing row update. -/
theorem borrow_creates_loan (s₀ s : Store) (h₀ : WFInit s₀)
    (h : Reachable s₀ s) :
    ∀ uid role isbn today s', borrow s uid role isbn today = .ok s' →
      s'.borrows = s.borrows ++ [newLoan s uid isbn today] ∧
      (newLoan s uid isbn today).uid = uid ∧
      (newLoan s uid isbn today).isbn = isbn ∧
      (newLoan s uid isbn today).borrow_date = today ∧
      (newLoan s uid isbn today).due_date = today + 90 ∧
      (newLoan s uid isbn today).returned = false ∧
      (∀ l ∈ s.borrows, l.id ≠ (newLoan s uid isbn today).id) ∧
      s'.books = s.books.map (decRemain isbn) := by
  have hI := reachable_inv s₀ s h₀ h
  intro uid role isbn today s' hok
  obtain ⟨b, hb, hpos, hdup, hq, rfl⟩ :=
    borrow_ok_elim s uid role isbn today s' hok
  refine ⟨rfl, rfl, rfl, rfl, rfl, rfl, ?_, rfl⟩
  intro l hl he
  have hlt := hI.idsLt l hl
  have hid : (newLoan s uid isbn today).id = s.nextId := rfl
  rw [hid] at he
  exact absurd he (Nat.ne_of_lt hlt)

theorem borrow_creates_loan_witness :
    demoStore1.borrows = demoStore.borrows ++
      [newLoan demoStore "S001" "B1" 0] ∧
    (∀ l ∈ demoStore.borrows, l.id ≠ (newLoan demoStore "S001" "B1" 0).id) := by
  have h := borrow_creates_loan demoStore demoStore
    ⟨rfl, by decide, by decide, by decide⟩ Reachable.init
    "S001" "STU" "B1" 0 demoStore1 (by decide)
  exact ⟨h.1, h.2.2.2.2.2.2.1⟩

/-- C6.  `return_book` fails (always with the generic `LibException`)
exactly when no open loan with that id belongs to that borrower — loan
absent, already returned, or owned by someone else; a failing call
returns no new state, so the store is unchanged; on success the matched
loan's `returned` flag flips from `false` to `true` and the stock of
that loan's ISBN is incremented by 1. -/
theorem return_book_spec (s : Store) (uid : String) (lid : Nat) :
    ((∃ e, return_book s uid lid = .error e) ↔
      ¬∃ l ∈ s.borrows, l.id = lid ∧ l.uid = uid ∧ l.returned = false) ∧
    (∀ e, return_book s uid lid = .error e → e = .libException) ∧
    (∀ s', return_book s uid lid = .ok s' →
      ∃ br ∈ s.borrows, br.id = lid ∧ br.uid = uid ∧ br.returned = false ∧
        flipRet lid br = { br with returned := true } ∧
        s'.borrows = s.borrows.map (flipRet lid) ∧
        (∀ b, findBook s br.isbn = some b →
          findBook s' br.isbn = some { b with remain := b.remain + 1 })) := by
  cases hf : s.borrows.find?
      (fun l => l.id == lid && l.uid == uid && l.returned == false) with
  | none =>
    have herr : return_book s uid lid = .error .libException := by
      unfold return_book
      rw [hf]
    have hnone := List.find?_eq_none.mp hf
    refine ⟨?_, ?_, ?_⟩
    · constructor
      · rintro - ⟨l, hl, h1, h2, h3⟩
        have hpl := hnone l hl
        simp [h1, h2, h3] at hpl
      · intro _
        exact ⟨.libException, herr⟩
    · intro e he
      exact Except.error.inj (he.symm.trans herr)
    · intro s' hs'
      exact absurd (herr.symm.trans hs') (by simp)
  | some br =>
    have hmem := List.mem_of_find?_eq_some hf
    have hp := List.find?_some hf
    simp only [Bool.and_eq_true, beq_iff_eq] at hp
    have hok : return_book s uid lid = .ok { s with
        borrows := s.borrows.map (flipRet lid),
        books := s.books.map (incRemain br.isbn) } := by
      unfold return_book
      rw [hf]
    refine ⟨?_, ?_, ?_⟩
    · constructor
      · rintro ⟨e, he⟩
        exact absurd (hok.symm.trans he) (by simp)
      · intro hc
        exact absurd ⟨br, hmem, hp.1.1, hp.1.2, hp.2⟩ hc
    · intro e he
      exact absurd (hok.symm.trans he) (by simp)
    · intro s' hs'
      have hs := Except.ok.inj (hok.symm.trans hs')
      refine ⟨br, hmem, hp.1.1, hp.1.2, hp.2, ?_, ?_, ?_⟩
      · simp [flipRet, hp.1.1]
      · rw [← hs]
      · intro b hfb
        rw [← hs]
        have hmap := find?_isbn_map s.books br.isbn (incRemain br.isbn)
          (incRemain_isbn br.isbn)
        show (s.books.map (incRemain br.isbn)).find?
            (fun x => x.isbn == br.isbn) = _
        rw [hmap]
        have hfb' : s.books.find? (fun x => x.isbn == br.isbn) = some b := hfb
        rw [hfb']
        have hbb := List.find?_some hfb'
        have hbisbn : b.isbn = br.isbn := beq_iff_eq.mp hbb
        simp [incRemain, hbisbn]

theorem return_book_spec_witness :
    ∃ br ∈ demoStore1.borrows, br.id = 1 ∧ br.uid = "S001" ∧
      br.returned = false ∧ flipRet 1 br = { br with returned := true } ∧
      demoStore2.borrows = demoStore1.borrows.map (flipRet 1) ∧
      (∀ b, findBook demoStore1 br.isbn = some b →
        findBook demoStore2 br.isbn = some { b with remain := b.remain + 1 }) :=
  (return_book_spec demoStore1 "S001" 1).2.2 demoStore2 (by decide)

/-- C7 as frozen is refuted: the `name` setter only rejects the empty
string (`if not value`), so renaming to a single blank — a non-empty
string whose every character is whitespace, hence blank after trimming —
succeeds and persists the blank name instead of failing with the
validation error. -/
theorem rename_blank_cex :
    (" " : String) ≠ "" ∧ (∀ c ∈ (" " : String).toList, c = ' ') ∧
    setName demoStore "S001" " " = .ok blankStore :=
  ⟨by decide, by decide, by decide⟩

/-- C7 amended.  `renameTo` fails with the validation error exactly when
the new name is the empty string; any non-empty name — including one
consisting only of whitespace — is persisted as given.  (Trimming
happens only at the HTTP boundary in `app.py`, before the setter is
called.) -/
theorem rename_validation (s : Store) (uid v : String) :
    (setName s uid v = .error .valueError ↔ v = "") ∧
    (v ≠ "" → setName s uid v = .ok { s with
      users := s.users.map
        (fun u => if u.uid == uid then { u with uname := v } else u) }) := by
  constructor
  · constructor
    · intro he
      by_cases hv : v = ""
      · exact hv
      · unfold setName at he
        rw [if_neg hv] at he
        exact absurd he (by simp)
    · intro hv
      unfold setName
      rw [if_pos hv]
  · intro hne
    unfold setName
    rw [if_neg hne]

theorem rename_validation_witness :
    ("Bob" : String) ≠ "" ∧
    setName demoStore "S001" "Bob" = .ok { demoStore with
      users := demoStore.users.map
        (fun u => if u.uid == "S001" then { u with uname := "Bob" } else u) } :=
  ⟨by decide, (rename_validation demoStore "S001" "Bob").2 (by decide)⟩

/-- C10.  Frame conditions: a successful `borrow` leaves the `user`,
`class`, `student` and `teacher_class` tables untouched, touches books
only through the stock row update for the borrowed ISBN (every other
book row is preserved), and appends exactly one loan, for that borrower
and ISBN; a successful `return_book` likewise leaves those tables
untouched, touches loans only through the `returned` row update for the
matched id (every other loan row is preserved), and touches books only
through the stock row update for one ISBN. -/
theorem frame_conditions (s : Store) (uid role isbn : String) (today : Nat)
    (lid : Nat) :
    (∀ s', borrow s uid role isbn today = .ok s' →
       s'.users = s.users ∧ s'.classes = s.classes ∧
       s'.students = s.students ∧ s'.teacher_class = s.teacher_class ∧
       s'.books = s.books.map (decRemain isbn) ∧
       (∀ b ∈ s.books, b.isbn ≠ isbn → b ∈ s'.books) ∧
       s'.borrows = s.borrows ++ [newLoan s uid isbn today] ∧
       (newLoan s uid isbn today).uid = uid ∧
       (newLoan s uid isbn today).isbn = isbn) ∧
    (∀ s', return_book s uid lid = .ok s' →
       s'.users = s.users ∧ s'.classes = s.classes ∧
       s'.students = s.students ∧ s'.teacher_class = s.teacher_class ∧
       s'.borrows = s.borrows.map (flipRet lid) ∧
       (∀ l ∈ s.borrows, l.id ≠ lid → l ∈ s'.borrows) ∧
       ∃ i, s'.books = s.books.map (incRemain i) ∧
         (∀ b ∈ s.books, b.isbn ≠ i → b ∈ s'.books)) := by
  constructor
  · intro s' hok
    obtain ⟨b, hb, hpos, hdup, hq, rfl⟩ :=
      borrow_ok_elim s uid role isbn today s' hok
    refine ⟨rfl, rfl, rfl, rfl, rfl, ?_, rfl, rfl, rfl⟩
    intro c hc hne
    have hd : decRemain isbn c = c := by simp [decRemain, hne]
    have hmm := List.mem_map_of_mem (decRemain isbn) hc
    rwa [hd] at hmm
  · intro s' hok
    obtain ⟨br, hf, hm, hid, huid, hro, rfl⟩ := return_ok_elim s uid lid s' hok
    refine ⟨rfl, rfl, rfl, rfl, rfl, ?_, br.isbn, rfl, ?_⟩
    · intro l hl hne
      have hfl : flipRet lid l = l := by simp [flipRet, hne]
      have hmm := List.mem_map_of_mem (flipRet lid) hl
      rwa [hfl] at hmm
    · intro c hc hne
      have hi : incRemain br.isbn c = c := by simp [incRemain, hne]
      have hmm := List.mem_map_of_mem (incRemain br.isbn) hc
      rwa [hi] at hmm

theorem frame_conditions_witness :
    demoStore1.users = demoStore.users ∧
    demoStore1.teacher_class = demoStore.teacher_class ∧
    demoStore2.users = demoStore1.users := by
  have h1 := (frame_conditions demoStore "S001" "STU" "B1" 0 0).1
    demoStore1 (by decide)
  have h2 := (frame_conditions demoStore1 "S001" "STU" "B1" 0 1).2
    demoStore2 (by decide)
  exact ⟨h1.1, h1.2.2.2.1, h2.1⟩

end Library
